import Mathlib

/- Verification development for the auction-site structure-discovery engine
   (src/smart_analyzer.py, src/analyzer/batch_analyzer.py,
   src/analyzer/deep_analyzer.py, src/analyzer/structure_analyzer.py).

   The Python code is shallowly embedded: strings are Lean `String`s, Python
   floats are modelled as `ℚ` (all arithmetic involved is exact decimal),
   Python lists are Lean `List`s, and Python `dict`/`set` values are modelled
   as insertion-ordered association lists / deduplicated lists (CPython dicts
   iterate in insertion order; for sets only emptiness and membership are used
   by the properties below).  Network I/O and BeautifulSoup parsing are
   external collaborators: a fetched page is abstracted as a `Soup` (the
   anchors `find_all('a', href=True)` would yield, with their stripped anchor
   text and surrounding parent text, plus the first links of the CSS-selector
   card matches), and the network is an oracle `String → PageFetch`. -/

/-! ### Basic string helpers (Python `str` operations, ASCII-faithful) -/

def isPrefixL : List Char → List Char → Bool
  | [], _ => true
  | _ :: _, [] => false
  | a :: as, b :: bs => a == b && isPrefixL as bs

def containsL (needle : List Char) : List Char → Bool
  | [] => isPrefixL needle []
  | c :: rest => isPrefixL needle (c :: rest) || containsL needle rest

/-- Python `needle in hay` (substring containment). -/
def strContains (hay needle : String) : Bool :=
  containsL needle.toList hay.toList

/-- Python `s.startswith(p)`. -/
def strStartsWith (s p : String) : Bool := isPrefixL p.toList s.toList

/-- Python `str.lower` (the code only ever distinguishes ASCII case). -/
def lowerStr (s : String) : String := String.mk (s.toList.map Char.toLower)

/-- Python `str.replace(pat, repl)`: leftmost non-overlapping occurrences,
scanning resumes after each replacement.  Fuel is the subject length, which
suffices because every step consumes at least one character of the subject
(for the non-empty patterns used here). -/
def replaceSubGo (pat repl : List Char) : Nat → List Char → List Char
  | _, [] => []
  | 0, l => l
  | fuel + 1, c :: rest =>
    if isPrefixL pat (c :: rest) then
      repl ++ replaceSubGo pat repl fuel ((c :: rest).drop pat.length)
    else
      c :: replaceSubGo pat repl fuel rest

def replaceSub (pat repl s : String) : String :=
  String.mk (replaceSubGo pat.toList repl.toList s.toList.length s.toList)

/-- Python `s.rstrip('/')`. -/
def rstripSlash (s : String) : String :=
  String.mk ((s.toList.reverse.dropWhile (· == '/')).reverse)

/-- Split a character list at the first occurrence of `c`; the separator is
dropped.  If `c` does not occur the second component is empty. -/
def breakAtChar (c : Char) (l : List Char) : List Char × List Char :=
  (l.takeWhile (· != c), (l.dropWhile (· != c)).drop 1)

/-- Python `s.split(pat)[0]` for a non-empty `pat`: the prefix of `s` before
the first occurrence of `pat` (all of `s` when `pat` does not occur). -/
def takeBeforeSubGo (pat : List Char) : List Char → List Char
  | [] => []
  | c :: rest =>
    if isPrefixL pat (c :: rest) then [] else c :: takeBeforeSubGo pat rest

def takeBeforeSub (pat s : String) : String :=
  String.mk (takeBeforeSubGo pat.toList s.toList)

/-- `list(dict.fromkeys(l))`-style deduplication keeping first occurrences.
Used to model Python `set` construction where only membership/emptiness of
the result matters (CPython set iteration order is unspecified). -/
def dedupFirst (l : List String) : List String :=
  l.foldl (fun acc u => if u ∈ acc then acc else acc ++ [u]) []

/-! ### URL parsing and joining

Models of `urllib.parse.urlparse` / `urljoin` for the URL shapes the
analyzers produce: absolute `http(s)` URLs, protocol-relative, root-relative
and simple relative references. -/

structure ParsedUrl where
  scheme : String
  netloc : String
  path : String
  query : String
  fragment : String
deriving DecidableEq

def parse_url (s : String) : ParsedUrl :=
  let l := s.toList
  let p1 := breakAtChar '#' l
  let p2 := breakAtChar '?' p1.1
  if isPrefixL "http://".toList p2.1 then
    let rest := p2.1.drop 7
    { scheme := "http", netloc := String.mk (rest.takeWhile (· != '/')),
      path := String.mk (rest.dropWhile (· != '/')),
      query := String.mk p2.2, fragment := String.mk p1.2 }
  else if isPrefixL "https://".toList p2.1 then
    let rest := p2.1.drop 8
    { scheme := "https", netloc := String.mk (rest.takeWhile (· != '/')),
      path := String.mk (rest.dropWhile (· != '/')),
      query := String.mk p2.2, fragment := String.mk p1.2 }
  else
    { scheme := "", netloc := "", path := String.mk p2.1,
      query := String.mk p2.2, fragment := String.mk p1.2 }

/-- Directory part of a path, up to and including the last `/` (or `/` when
the path has no slash), as `urljoin` uses it for relative references. -/
def takeDirOf (path : String) : String :=
  let l := path.toList
  if l.contains '/' then String.mk ((l.reverse.dropWhile (· != '/')).reverse)
  else "/"

def urljoin (base href : String) : String :=
  if href = "" then base
  else if strStartsWith href "http://" || strStartsWith href "https://" then href
  else if strStartsWith href "//" then (parse_url base).scheme ++ ":" ++ href
  else if strStartsWith href "/" then
    (parse_url base).scheme ++ "://" ++ (parse_url base).netloc ++ href
  else
    (parse_url base).scheme ++ "://" ++ (parse_url base).netloc ++
      takeDirOf (parse_url base).path ++ href

/-! ### A small regular-expression engine (Brzozowski derivatives)

Executable matcher for the fixed regex tables of the source
(`LOT_URL_INDICATORS`, `PRICE_PATTERNS`).  `rsearch` is Python `re.search`
truthiness: does any substring match. -/

inductive Rx where
  | emp : Rx
  | eps : Rx
  | cls : (Char → Bool) → Rx
  | seq : Rx → Rx → Rx
  | alt : Rx → Rx → Rx
  | star : Rx → Rx

def Rx.nullable : Rx → Bool
  | .emp => false
  | .eps => true
  | .cls _ => false
  | .seq a b => a.nullable && b.nullable
  | .alt a b => a.nullable || b.nullable
  | .star _ => true

def Rx.deriv : Rx → Char → Rx
  | .emp, _ => .emp
  | .eps, _ => .emp
  | .cls f, c => if f c then .eps else .emp
  | .seq a b, c =>
    if a.nullable then .alt (.seq (a.deriv c) b) (b.deriv c)
    else .seq (a.deriv c) b
  | .alt a b, c => .alt (a.deriv c) (b.deriv c)
  | .star a, c => .seq (a.deriv c) (.star a)

def rmatch (r : Rx) (s : List Char) : Bool := (s.foldl Rx.deriv r).nullable

def anyC : Rx := .cls fun _ => true

/-- Python `re.search(r, s)` truthiness: some substring of `s` matches `r`. -/
def rsearch (r : Rx) (s : String) : Bool :=
  rmatch (.seq (.star anyC) (.seq r (.star anyC))) s.toList

def chrR (c : Char) : Rx := .cls (· == c)

def strRx (s : String) : Rx := s.toList.foldr (fun c r => .seq (chrR c) r) .eps

def oneOf (s : String) : Rx := .cls (fun c => s.toList.contains c)

def optR (r : Rx) : Rx := .alt r .eps

def plusR (r : Rx) : Rx := .seq r (.star r)

def digitR : Rx := .cls Char.isDigit

def dotR : Rx := .cls (fun c => c != '\n')

def wspR : Rx := .cls Char.isWhitespace

def seqList (l : List Rx) : Rx := l.foldr Rx.seq .eps

def altList (l : List Rx) : Rx := l.foldr Rx.alt .emp

/-! ### Fixed heuristic tables (src/smart_analyzer.py lines 26-70)

The regex tables are transcribed pattern by pattern.  `LOT_URL_INDICATORS`
is searched against an already-lowercased path; `PRICE_PATTERNS` is searched
with `re.IGNORECASE`, modelled here by searching the lowercased text with
lowercase literals. -/

def NAVIGATION_KEYWORDS : List String :=
  ["leilão", "leilao", "leilões", "leiloes",
   "catálogo", "catalogo", "catalog",
   "em andamento", "andamento", "aberto", "abertos",
   "próximo", "proximo", "próximos", "proximos",
   "agenda", "eventos", "evento",
   "busca", "buscar", "search",
   "imóveis", "imoveis", "imóvel", "imovel",
   "veículos", "veiculos", "veículo", "veiculo",
   "todos", "ver todos", "ver mais"]

def LOT_KEYWORDS : List String :=
  ["ver lote", "ver detalhes", "detalhe", "detalhes",
   "dar lance", "lance", "lançar", "lancar",
   "ver mais", "saiba mais", "mais info",
   "acessar", "visualizar", "abrir"]

/-- The href keyword list inlined at src/smart_analyzer.py line 282. -/
def NAV_HREF_KEYWORDS : List String :=
  ["leilao", "leiloe", "catalogo", "busca", "imovel", "imoveis", "veiculo", "veiculos"]

/-- The navigation-text skip list inlined at src/smart_analyzer.py line 306. -/
def LOT_SKIP_KEYWORDS : List String :=
  ["home", "início", "contato", "sobre", "login", "cadastro", "entrar"]

def PRICE_PATTERNS : List Rx :=
  [seqList [chrR 'r', chrR '$', .star wspR,
            plusR (.cls fun c => c.isDigit || c == '.' || c == ',')],
   seqList [strRx "lance", .star wspR,
            altList [strRx "mínimo", strRx "minimo", strRx "atual", strRx "inicial"]],
   strRx "avaliação", strRx "avaliacao",
   seqList [strRx "valor", .star wspR,
            altList [strRx "mínimo", strRx "minimo", strRx "inicial"]]]

def LOT_URL_INDICATORS : List Rx :=
  [seqList [strRx "/lote", optR (oneOf "s"), oneOf "/-"],
   seqList [strRx "/item", optR (oneOf "s"), oneOf "/-"],
   seqList [strRx "/produto", optR (oneOf "s"), oneOf "/-"],
   seqList [strRx "/bem", oneOf "/-"],
   seqList [strRx "/bens", oneOf "/-"],
   seqList [strRx "/imovel", oneOf "/-"],
   seqList [strRx "/imoveis", oneOf "/-"],
   seqList [strRx "/imóvel", oneOf "/-"],
   seqList [strRx "/imóveis", oneOf "/-"],
   seqList [strRx "/veiculo", oneOf "/-"],
   seqList [strRx "/veiculos", oneOf "/-"],
   seqList [strRx "/veículo", oneOf "/-"],
   seqList [strRx "/veículos", oneOf "/-"],
   seqList [strRx "/detalhe", optR (oneOf "s"), oneOf "/-"],
   seqList [strRx "/auction", oneOf "/-", strRx "item"],
   seqList [strRx "/lot", oneOf "/-"],
   seqList [strRx "/property", oneOf "/-"],
   seqList [strRx "/vehicle", oneOf "/-"],
   seqList [chrR '?', .star dotR, strRx "id", optR (oneOf "_-"),
            altList [strRx "lote", strRx "item", strRx "produto"]],
   seqList [chrR '/', digitR, digitR, digitR, digitR, .star digitR]]

/-! ### Parsed page abstraction -/

/-- One `<a href=...>` element: its `href`, its stripped anchor text
(`get_text(strip=True)`), and the text of its parent node. -/
structure Anchor where
  href : String
  text : String
  parentText : String
deriving DecidableEq

/-- A parsed HTML page: its anchors in document order, plus the first links
of the elements matched by the card/grid CSS selectors
(src/smart_analyzer.py lines 332-351), in selector order. -/
structure Soup where
  anchors : List Anchor
  cardAnchors : List Anchor
deriving DecidableEq

/-! ### Path normalization and pattern extraction
(src/smart_analyzer.py `_extract_patterns`, lines 355-391)

The three `re.sub` normalizations are embedded as direct scans with the same
leftmost non-overlapping, greedy semantics; at each candidate position the
backtracking behaviour of the concrete patterns reduces to maximal-run
scanning.  Fuel is the subject length (every step consumes a character). -/

/-- `re.sub(r'/\d+', '/{id}', path)`. -/
def subIdGo : Nat → List Char → List Char
  | _, [] => []
  | 0, l => l
  | fuel + 1, '/' :: c :: rest =>
    if c.isDigit then
      "/{id}".toList ++ subIdGo fuel ((c :: rest).dropWhile Char.isDigit)
    else '/' :: subIdGo fuel (c :: rest)
  | _ + 1, ['/'] => ['/']
  | fuel + 1, c :: rest => c :: subIdGo fuel rest

def isHexLower (c : Char) : Bool := c.isDigit || ('a' ≤ c && c ≤ 'f')

/-- `re.sub(r'/[a-f0-9]{8,}', '/{hash}', path)`. -/
def subHashGo : Nat → List Char → List Char
  | _, [] => []
  | 0, l => l
  | fuel + 1, '/' :: rest =>
    if (rest.takeWhile isHexLower).length ≥ 8 then
      "/{hash}".toList ++ subHashGo fuel (rest.dropWhile isHexLower)
    else '/' :: subHashGo fuel rest
  | fuel + 1, c :: rest => c :: subHashGo fuel rest

def isLowerDigit (c : Char) : Bool := c.isDigit || ('a' ≤ c && c ≤ 'z')

def isSlugChar (c : Char) : Bool := isLowerDigit c || c == '-'

/-- `re.sub(r'/[a-z0-9]+-[a-z0-9-]+', '/{slug}', path)`. -/
def subSlugGo : Nat → List Char → List Char
  | _, [] => []
  | 0, l => l
  | fuel + 1, '/' :: rest =>
    match rest.takeWhile isLowerDigit, rest.dropWhile isLowerDigit with
    | _ :: _, '-' :: _ =>
      "/{slug}".toList ++ subSlugGo fuel ((rest.dropWhile isLowerDigit).dropWhile isSlugChar)
    | _, _ => '/' :: subSlugGo fuel rest
  | fuel + 1, c :: rest => c :: subSlugGo fuel rest

/-- The normalization chain of `_extract_patterns` (lines 367-370): numeric
ids, then long hex runs, then slugs. -/
def normalizePath (path : String) : String :=
  let l1 := subIdGo path.toList.length path.toList
  let l2 := subHashGo l1.length l1
  let l3 := subSlugGo l2.length l2
  String.mk l3

/-- Normalized structural template of a URL (its parsed path, normalized). -/
def templateOf (url : String) : String := normalizePath (parse_url url).path

/-- `path_structures[normalized].append(url)` on an insertion-ordered
`defaultdict(list)`: append `url` to the group of `key`, creating the group
at the end when absent. -/
def addToGroup (key url : String) :
    List (String × List String) → List (String × List String)
  | [] => [(key, [url])]
  | (k, us) :: rest =>
    if k = key then (k, us ++ [url]) :: rest
    else (k, us) :: addToGroup key url rest

/-- The grouping loop of `_extract_patterns` (lines 361-372). -/
def path_structures (urls : List String) : List (String × List String) :=
  urls.foldl (fun acc u => addToGroup (templateOf u) u acc) []

/-- Stable insertion (descending by group size), modelling Python's stable
`sorted(..., key=lambda x: -len(x[1]))`. -/
def insertDesc (g : String × List String) :
    List (String × List String) → List (String × List String)
  | [] => [g]
  | h :: t => if g.2.length > h.2.length then g :: h :: t else h :: insertDesc g t

def sortGroupsDesc (l : List (String × List String)) : List (String × List String) :=
  l.foldl (fun acc g => insertDesc g acc) []

/-- src/smart_analyzer.py `LotPattern` dataclass (lines 73-79).  `confidence`
is an exact rational model of the Python float. -/
structure LotPattern where
  pattern : String
  example_urls : List String
  confidence : ℚ
  count : Nat
deriving DecidableEq

namespace SmartSiteAnalyzer

/-- `SmartSiteAnalyzer._extract_patterns` (lines 355-391).  `base_domain` is
accepted and unused, exactly as in the source. -/
def extract_patterns (urls : List String) (base_domain : String) : List LotPattern :=
  if urls = [] then []
  else
    ((sortGroupsDesc (path_structures urls)).foldl (fun acc g =>
      if g.2.length ≥ 1 then
        if takeBeforeSub "/\x7b" g.1 ≠ "" ∧ takeBeforeSub "/\x7b" g.1 ≠ "/" then
          acc ++ [{ pattern := rstripSlash (takeBeforeSub "/\x7b" g.1) ++ "/",
                    example_urls := g.2.take 5,
                    confidence := min ((g.2.length : ℚ) / 10) 1,
                    count := g.2.length }]
        else acc
      else acc) []).take 10

/-- `SmartSiteAnalyzer._is_same_domain` (lines 417-421): deletes every
occurrence of the substring `www.` from both hosts, lowercases, compares. -/
def is_same_domain (domain1 domain2 : String) : Bool :=
  lowerStr (replaceSub "www." "" domain1) == lowerStr (replaceSub "www." "" domain2)

/-- The navigation-link condition of `_find_navigation_links`
(lines 277-284): anchor text contains a navigation keyword, or the href
contains one of the navigation href keywords. -/
def nav_hit (a : Anchor) : Bool :=
  NAVIGATION_KEYWORDS.any (fun kw => strContains (lowerStr a.text) kw) ||
  NAV_HREF_KEYWORDS.any (fun kw => strContains (lowerStr a.href) kw)

/-- The skip condition of `_find_lot_links` (line 306). -/
def lot_skip (a : Anchor) : Bool :=
  LOT_SKIP_KEYWORDS.any (fun kw => strContains (lowerStr a.text) kw)

/-- The lot condition of `_find_lot_links` (lines 315-328): lot-looking URL
path, or lot action keyword in the anchor text, or price-like pattern in the
parent text. -/
def lot_hit (a : Anchor) (base_url : String) : Bool :=
  LOT_URL_INDICATORS.any (fun r => rsearch r (lowerStr (parse_url (urljoin base_url a.href)).path)) ||
  LOT_KEYWORDS.any (fun kw => strContains (lowerStr a.text) kw) ||
  PRICE_PATTERNS.any (fun r => rsearch r (lowerStr a.parentText))

/-- `SmartSiteAnalyzer._find_navigation_links` (lines 268-293). -/
def find_navigation_links (soup : Soup) (base_url base_domain : String) : List String :=
  soup.anchors.foldl (fun nav_links a =>
    if nav_hit a then
      if is_same_domain (parse_url (urljoin base_url a.href)).netloc base_domain then
        if urljoin base_url a.href ∈ nav_links then nav_links
        else nav_links ++ [urljoin base_url a.href]
      else nav_links
    else nav_links) []

/-- `SmartSiteAnalyzer._find_lot_links` (lines 295-353): keyword/URL/price
strategy over the anchors, then the card-selector strategy. -/
def find_lot_links (soup : Soup) (base_url base_domain : String) : List String :=
  let step1 := soup.anchors.foldl (fun lot_links a =>
    if lot_skip a then lot_links
    else if !is_same_domain (parse_url (urljoin base_url a.href)).netloc base_domain then lot_links
    else if lot_hit a base_url then
      if urljoin base_url a.href ∈ lot_links then lot_links
      else lot_links ++ [urljoin base_url a.href]
    else lot_links) []
  soup.cardAnchors.foldl (fun lot_links a =>
    if is_same_domain (parse_url (urljoin base_url a.href)).netloc base_domain then
      if urljoin base_url a.href ∈ lot_links then lot_links
      else lot_links ++ [urljoin base_url a.href]
    else lot_links) step1

/-- `SmartSiteAnalyzer._generate_config` (lines 393-415), as a function from
the inputs it reads to the `(crawl_start_urls, include_paths)` it writes. -/
def generate_config (url_final url_base : String) (listing_pages : List String)
    (patterns : List LotPattern) : List String × List String :=
  let base := if url_final ≠ "" then url_final else url_base
  let crawl := (listing_pages.take 5).foldl
    (fun acc p => if p ∈ acc then acc else acc ++ [p]) [base]
  let inc := patterns.foldl
    (fun acc p => if p.pattern ≠ "" ∧ p.pattern ∉ acc then acc ++ [p.pattern] else acc) []
  (crawl, if inc = [] then ["/lote/", "/item/", "/detalhe/"] else inc)

end SmartSiteAnalyzer

/-! ### Page fetching with retries (src/smart_analyzer.py `_fetch_page`,
lines 235-266)

The network is an oracle mapping the attempt index to the observed outcome.
The embedding additionally reports the number of attempts performed, which
the Python loop makes observable through its requests. -/

inductive FetchResp where
  | http : Nat → String → String → FetchResp
  | connError : String → FetchResp
  | serverTimeout : FetchResp
  | sslError : String → FetchResp
  | reqTimeout : FetchResp
  | exc : String → String → FetchResp
deriving DecidableEq

/-- Python `str(e)[:80]` style truncation. -/
def strTake (n : Nat) (s : String) : String := String.mk (s.toList.take n)

/-- The `last_error` message assigned for one failed attempt
(lines 245-261).  The `.http 200` case is unreachable (a 200 returns). -/
def respError : FetchResp → String
  | .http 403 _ _ => "HTTP 403 Forbidden - Site bloqueou acesso"
  | .http 503 _ _ => "HTTP 503 - Cloudflare/proteção ativa"
  | .http s _ _ => "HTTP " ++ toString s
  | .connError m => "Conexão falhou: " ++ strTake 80 m
  | .serverTimeout => "Timeout - servidor não respondeu"
  | .sslError m => "Erro SSL: " ++ strTake 80 m
  | .reqTimeout => "Timeout na requisição"
  | .exc n m => n ++ ": " ++ strTake 80 m

def isOk200 : FetchResp → Bool
  | .http code _ _ => code == 200
  | _ => false

/-- The `for attempt in range(retries + 1)` loop body: on a 200 response
return `(html, final_url, "")` at once; on anything else record the error
message and move to the next attempt; when attempts are exhausted return
`(None, url, last_error)`.  The second component counts attempts made. -/
def fetch_page_go (resp : Nat → FetchResp) (url : String) :
    Nat → Nat → String → (Option String × String × String) × Nat
  | 0, attempt, lastErr => ((none, url, lastErr), attempt)
  | remaining + 1, attempt, _lastErr =>
    match resp attempt with
    | .http code body finalUrl =>
      if code = 200 then ((some body, finalUrl, ""), attempt + 1)
      else fetch_page_go resp url remaining (attempt + 1) (respError (.http code body finalUrl))
    | other => fetch_page_go resp url remaining (attempt + 1) (respError other)

/-- `SmartSiteAnalyzer._fetch_page(session, url, retries)`. -/
def fetch_page (resp : Nat → FetchResp) (url : String) (retries : Nat) :
    (Option String × String × String) × Nat :=
  fetch_page_go resp url (retries + 1) 0 ""

/-! ### Per-site orchestration (src/smart_analyzer.py `analyze_site`,
lines 137-233)

A fetch of one page is summarized by its externally observable outcome:
either a parsed page with its post-redirect final URL, or a failure message
(the empty-HTML case of lines 162-166). -/

inductive PageFetch where
  | ok : Soup → String → PageFetch
  | fail : String → PageFetch
deriving DecidableEq

def Oracle : Type := String → PageFetch

/-- src/smart_analyzer.py `SmartAnalysisResult` dataclass (lines 82-110);
`analysis_time_ms` (wall-clock) is outside the model. -/
structure SmartAnalysisResult where
  nome : String
  dominio : String
  status : String
  url_base : String
  url_final : String
  listing_pages : List String
  lot_patterns : List LotPattern
  lot_examples : List String
  crawl_start_urls : List String
  include_paths : List String
  pages_visited : Nat
  links_analyzed : Nat
  error_message : String
deriving DecidableEq

/-- URL normalization of lines 145-147: default the scheme to `https://`,
collapse a doubled `www.www.` prefix. -/
def normalize_domain (d : String) : String :=
  let d1 := if strStartsWith d "http://" || strStartsWith d "https://" then d
            else "https://" ++ d
  replaceSub "https://www.www." "https://www." d1

/-- The common listing paths appended to the visit queue (line 179). -/
def COMMON_PATHS : List String :=
  ["/leiloes", "/leilao", "/catalogo", "/imoveis", "/veiculos", "/lotes", "/busca"]

/-- Mutable state of the listing-page visit loop (lines 187-209). -/
structure VisitState where
  visited : List String
  all_cands : List String
  listing_pages : List String
  pages_visited : Nat

namespace SmartSiteAnalyzer

/-- `SmartSiteAnalyzer.analyze_site` (lines 137-233).  `net` summarizes
`_fetch_page`'s outcome per URL; `max_pages` is the constructor parameter.
`lot_examples` is `list(set(all_lot_candidates))[:20]`, modelled by
first-occurrence deduplication (set order is unspecified; only membership
and emptiness are relied upon). -/
def analyze_site (net : Oracle) (dominio nome : String) (max_pages : Nat) :
    SmartAnalysisResult :=
  let url_base := normalize_domain dominio
  match net url_base with
  | .fail err =>
    { nome := nome, dominio := dominio, status := "error", url_base := url_base,
      url_final := "", listing_pages := [], lot_patterns := [], lot_examples := [],
      crawl_start_urls := [], include_paths := [], pages_visited := 0,
      links_analyzed := 0,
      error_message := if err ≠ "" then err else "Não foi possível acessar a página inicial" }
  | .ok home_soup final_url =>
    let base_domain := (parse_url final_url).netloc
    let nav_links := COMMON_PATHS.foldl (fun acc p =>
      if rstripSlash final_url ++ p ∈ acc then acc
      else acc ++ [rstripSlash final_url ++ p])
      (find_navigation_links home_soup final_url base_domain)
    let st := (nav_links.take max_pages).foldl (fun (st : VisitState) nav_url =>
      if nav_url ∈ st.visited then st
      else
        match net nav_url with
        | .fail _ => { st with visited := st.visited ++ [nav_url] }
        | .ok psoup _ =>
          let cands := find_lot_links psoup nav_url base_domain
          { visited := st.visited ++ [nav_url],
            all_cands := st.all_cands ++ cands,
            listing_pages := if cands ≠ [] then st.listing_pages ++ [nav_url]
                             else st.listing_pages,
            pages_visited := st.pages_visited + 1 })
      { visited := [final_url],
        all_cands := find_lot_links home_soup final_url base_domain,
        listing_pages := [], pages_visited := 1 }
    let patterns := extract_patterns st.all_cands base_domain
    let cfg := generate_config final_url url_base st.listing_pages patterns
    { nome := nome, dominio := dominio,
      status := if patterns ≠ [] then "success" else "no_patterns",
      url_base := url_base, url_final := final_url,
      listing_pages := st.listing_pages, lot_patterns := patterns,
      lot_examples := (dedupFirst st.all_cands).take 20,
      crawl_start_urls := cfg.1, include_paths := cfg.2,
      pages_visited := st.pages_visited, links_analyzed := st.all_cands.length,
      error_message := "" }

end SmartSiteAnalyzer

/-! ### Batch orchestration (src/smart_analyzer.py `run_smart_analysis`,
lines 424-441, and src/analyzer/batch_analyzer.py `analyze_sites`,
lines 41-77)

`asyncio.gather` returns one result per task in task order; the semaphore
bounds concurrency but neither drops nor duplicates tasks.
`asyncio.as_completed` yields the same results in completion order: some
permutation of the task indices. -/

/-- One row of the input site list (`{'nome': ..., 'dominio': ...}`). -/
structure SiteDict where
  nome : String
  dominio : String
deriving DecidableEq

/-- `run_smart_analysis` (lines 424-441): `SmartSiteAnalyzer(timeout=45,
max_pages=8)`, one `analyze_site` per input site, gathered in order. -/
def run_smart_analysis (net : Oracle) (sites : List SiteDict) : List SmartAnalysisResult :=
  sites.map (fun site => SmartSiteAnalyzer.analyze_site net site.dominio site.nome 8)

/-- `BatchAnalyzer.analyze_sites`'s collection loop (lines 70-74): results
arrive in completion order, a permutation `order` of the task indices. -/
def batch_collect {α : Type} (results : List α) (order : List Nat) : List α :=
  order.filterMap (fun i => results[i]?)

/-! ### The deep and structure analyzer variants
(src/analyzer/deep_analyzer.py, src/analyzer/structure_analyzer.py) -/

/-- The canonicalized link of deep_analyzer lines 229-231 and
structure_analyzer lines 279-281: scheme + host + path, plus the query when
non-empty; the fragment is dropped. -/
def clean_url (p : ParsedUrl) : String :=
  p.scheme ++ "://" ++ p.netloc ++ p.path ++ (if p.query ≠ "" then "?" ++ p.query else "")

namespace DeepSiteAnalyzer

/-- `DeepSiteAnalyzer._is_same_domain` (deep_analyzer lines 239-243): deletes
every occurrence of `www.` from both hosts and compares (no lowercasing). -/
def is_same_domain (domain1 domain2 : String) : Bool :=
  replaceSub "www." "" domain1 == replaceSub "www." "" domain2

/-- The link-extraction part of `DeepSiteAnalyzer._analyze_page`
(deep_analyzer lines 214-234), applied to a parsed page and its final URL.
The Python `set` of links is modelled as an insertion-deduplicated list. -/
def analyze_page_links (soup : Soup) (final_url : String) : List String :=
  soup.anchors.foldl (fun links a =>
    if strStartsWith a.href "#" || strStartsWith a.href "javascript:" ||
       strStartsWith a.href "mailto:" || strStartsWith a.href "tel:" then links
    else
      if is_same_domain (parse_url (urljoin final_url a.href)).netloc
          (parse_url final_url).netloc then
        if clean_url (parse_url (urljoin final_url a.href)) ∈ links then links
        else links ++ [clean_url (parse_url (urljoin final_url a.href))]
      else links) []

/-- The static `pattern_name → include path` table of
`DeepSiteAnalyzer._define_crawl_config` (deep_analyzer lines 340-357). -/
def pattern_to_include : List (String × String) :=
  [("lote_numerico", "/lote/"), ("lote_slug", "/lote/"),
   ("item_numerico", "/item/"), ("produto_numerico", "/produto/"),
   ("bem_numerico", "/bem/"), ("imovel_numerico", "/imovel/"),
   ("imovel_slug", "/imovel/"), ("veiculo_numerico", "/veiculo/"),
   ("veiculo_slug", "/veiculo/"), ("detalhe_numerico", "/detalhe/"),
   ("detalhe_slug", "/detalhe/"), ("ver_numerico", "/ver/"),
   ("query_id", "?"), ("auction_item", "/auction-item/"),
   ("lot_detail", "/lot-detail/"), ("property", "/property/")]

/-- Stable insertion sort, descending by confidence: Python's stable
`sorted(patterns.items(), key=lambda x: -x[1])`. -/
def insertConfDesc (g : String × ℚ) : List (String × ℚ) → List (String × ℚ)
  | [] => [g]
  | h :: t => if g.2 > h.2 then g :: h :: t else h :: insertConfDesc g t

def sortPatternsDesc (l : List (String × ℚ)) : List (String × ℚ) :=
  l.foldl (fun acc g => insertConfDesc g acc) []

/-- `DeepSiteAnalyzer._define_crawl_config` (deep_analyzer lines 317-369) as
a function from what it reads to the `(crawl_start_urls,
lot_include_patterns)` it writes.  `patterns` is the insertion-ordered
`pattern name → confidence` dict. -/
def define_crawl_config (final_url base_url : String) (listing_pages : List String)
    (patterns : List (String × ℚ)) : List String × List String :=
  let base := if final_url ≠ "" then final_url else base_url
  let crawl := ((listing_pages.take 3).foldl
    (fun acc p => if p ∈ acc then acc else acc ++ [p]) [base]).take 5
  let inc := (sortPatternsDesc patterns).foldl (fun acc pc =>
    match pattern_to_include.find? (fun kv => kv.1 == pc.1) with
    | some kv =>
      if pc.2 > 1/10 then (if kv.2 ∈ acc then acc else acc ++ [kv.2]) else acc
    | none => acc) []
  (crawl, (if inc = [] then ["/lote/", "/item/", "/detalhe/"] else inc).take 5)

end DeepSiteAnalyzer

namespace SiteStructureAnalyzer

/-- `SiteStructureAnalyzer._extract_internal_links` (structure_analyzer
lines 261-284).  Same-domain test: exact host equality, or an exact `www.`
prefix difference in either direction.  The Python `set` of links is
modelled as an insertion-deduplicated list. -/
def extract_internal_links (soup : Soup) (base_url base_domain : String) : List String :=
  soup.anchors.foldl (fun links a =>
    if strStartsWith a.href "#" || strStartsWith a.href "javascript:" ||
       strStartsWith a.href "mailto:" || strStartsWith a.href "tel:" ||
       strStartsWith a.href "whatsapp:" then links
    else
      if ((parse_url (urljoin base_url a.href)).netloc == base_domain ||
          (parse_url (urljoin base_url a.href)).netloc == "www." ++ base_domain ||
          base_domain == "www." ++ (parse_url (urljoin base_url a.href)).netloc) then
        if clean_url (parse_url (urljoin base_url a.href)) ∈ links then links
        else links ++ [clean_url (parse_url (urljoin base_url a.href))]
      else links) []

end SiteStructureAnalyzer

/-! ### Lemmas about the append-if-absent folds -/

lemma foldl_mem_of_step {α : Type} (g : List String → α → List String)
    (P : α → String → Prop)
    (hstep : ∀ acc a u, u ∈ g acc a → u ∈ acc ∨ P a u) :
    ∀ (l : List α) (acc : List String) (u : String),
      u ∈ l.foldl g acc → u ∈ acc ∨ ∃ a, a ∈ l ∧ P a u := by
  intro l
  induction l with
  | nil => intro acc u h; exact Or.inl h
  | cons b bl ih =>
    intro acc u h
    rcases ih (g acc b) u h with h1 | ⟨a, ha, hp⟩
    · rcases hstep acc b u h1 with h2 | hp
      · exact Or.inl h2
      · exact Or.inr ⟨b, List.mem_cons_self b bl, hp⟩
    · exact Or.inr ⟨a, List.mem_cons_of_mem b ha, hp⟩

lemma foldl_mem_mono {α : Type} (g : List String → α → List String)
    (hmono : ∀ acc a u, u ∈ acc → u ∈ g acc a) :
    ∀ (l : List α) (acc : List String) (u : String),
      u ∈ acc → u ∈ l.foldl g acc := by
  intro l
  induction l with
  | nil => intro acc u h; exact h
  | cons b bl ih => intro acc u h; exact ih (g acc b) u (hmono acc b u h)

lemma foldl_mem_hit {α : Type} (g : List String → α → List String)
    (hmono : ∀ acc a u, u ∈ acc → u ∈ g acc a) (a : α) (u : String)
    (hhit : ∀ acc, u ∈ g acc a) :
    ∀ (l : List α) (acc : List String), a ∈ l → u ∈ l.foldl g acc := by
  intro l
  induction l with
  | nil => intro acc h; cases h
  | cons b bl ih =>
    intro acc hmem
    rcases List.mem_cons.mp hmem with heq | hbl
    · subst heq
      exact foldl_mem_mono g hmono bl (g acc a) u (hhit acc)
    · exact ih (g acc b) hbl

lemma crawl_foldl_ne_nil :
    ∀ (l acc : List String), acc ≠ [] →
      l.foldl (fun acc p => if p ∈ acc then acc else acc ++ [p]) acc ≠ [] := by
  intro l
  induction l with
  | nil => intro acc h; exact h
  | cons b bl ih =>
    intro acc h
    simp only [List.foldl_cons]
    refine ih _ ?_
    by_cases hb : b ∈ acc <;> simp [hb, h]

lemma crawl_foldl_head :
    ∀ (l acc : List String), acc ≠ [] →
      (l.foldl (fun acc p => if p ∈ acc then acc else acc ++ [p]) acc).head? =
        acc.head? := by
  intro l
  induction l with
  | nil => intro acc _; rfl
  | cons b bl ih =>
    intro acc h
    have hne : (if b ∈ acc then acc else acc ++ [b]) ≠ [] := by
      by_cases hb : b ∈ acc <;> simp [hb, h]
    have hh : (if b ∈ acc then acc else acc ++ [b]).head? = acc.head? := by
      by_cases hb : b ∈ acc
      · simp [hb]
      · simp only [hb, if_false]
        cases acc with
        | nil => exact absurd rfl h
        | cons x xs => rfl
    simp only [List.foldl_cons]
    exact (ih _ hne).trans hh

lemma crawl_foldl_length :
    ∀ (l acc : List String),
      (l.foldl (fun acc p => if p ∈ acc then acc else acc ++ [p]) acc).length ≤
        acc.length + l.length := by
  intro l
  induction l with
  | nil => intro acc; simp
  | cons b bl ih =>
    intro acc
    simp only [List.foldl_cons, List.length_cons]
    have h1 := ih (if b ∈ acc then acc else acc ++ [b])
    have h2 : (if b ∈ acc then acc else acc ++ [b]).length ≤ acc.length + 1 := by
      by_cases hb : b ∈ acc <;> simp [hb]
    omega

/-! ### Lemmas about the template grouping of `_extract_patterns` -/

/-- The list of URLs currently grouped under the key `t` (empty when the key
is absent). -/
def groupVal (t : String) (l : List (String × List String)) : List String :=
  ((l.find? (fun p => p.1 == t)).map Prod.snd).getD []

lemma groupVal_addToGroup_same (k u : String) :
    ∀ l, groupVal k (addToGroup k u l) = groupVal k l ++ [u] := by
  intro l
  induction l with
  | nil => simp [addToGroup, groupVal]
  | cons hd t ih =>
    rcases hd with ⟨k', us⟩
    by_cases hk : k' = k
    · subst hk; simp [addToGroup, groupVal]
    · have hb : (k' == k) = false := by simpa using hk
      simp only [addToGroup, hk, if_false, groupVal, List.find?, hb]
      exact ih

lemma groupVal_addToGroup_ne (t k u : String) (hne : t ≠ k) :
    ∀ l, groupVal t (addToGroup k u l) = groupVal t l := by
  intro l
  induction l with
  | nil =>
    have hb : (k == t) = false := by simpa using (Ne.symm hne)
    simp [addToGroup, groupVal, hb]
  | cons hd tl ih =>
    rcases hd with ⟨k', us⟩
    by_cases hk : k' = k
    · subst hk
      have hb : (k' == t) = false := by simpa using (Ne.symm hne)
      simp [addToGroup, groupVal, List.find?, hb]
    · simp only [addToGroup, hk, if_false]
      by_cases ht : k' = t
      · subst ht; simp [groupVal, List.find?]
      · have hb : (k' == t) = false := by simpa using ht
        simp only [groupVal, List.find?, hb]
        exact ih

lemma keys_addToGroup (k u : String) :
    ∀ l : List (String × List String),
      (addToGroup k u l).map Prod.fst =
        if k ∈ l.map Prod.fst then l.map Prod.fst else l.map Prod.fst ++ [k] := by
  intro l
  induction l with
  | nil => simp [addToGroup]
  | cons hd t ih =>
    rcases hd with ⟨k', us⟩
    by_cases hk : k' = k
    · subst hk; simp [addToGroup]
    · simp only [addToGroup, hk, if_false, List.map_cons]
      rw [ih]
      by_cases hmem : k ∈ t.map Prod.fst
      · simp [hmem, Ne.symm hk]
      · simp [hmem, Ne.symm hk]

lemma nodup_keys_addToGroup (k u : String) (l : List (String × List String))
    (h : (l.map Prod.fst).Nodup) :
    ((addToGroup k u l).map Prod.fst).Nodup := by
  rw [keys_addToGroup]
  by_cases hk : k ∈ l.map Prod.fst
  · simpa [hk]
  · simpa [hk, List.nodup_append] using h

lemma nodup_keys_path_structures_go (urls : List String) :
    ∀ acc : List (String × List String), (acc.map Prod.fst).Nodup →
      ((urls.foldl (fun acc u => addToGroup (templateOf u) u acc) acc).map
        Prod.fst).Nodup := by
  induction urls with
  | nil => intro acc h; exact h
  | cons v vs ih =>
    intro acc h
    simp only [List.foldl_cons]
    exact ih _ (nodup_keys_addToGroup _ v acc h)

lemma groupVal_path_structures_go (urls : List String) :
    ∀ (acc : List (String × List String)) (processed : List String),
      (∀ t, groupVal t acc = processed.filter (fun u => templateOf u == t)) →
      ∀ t, groupVal t (urls.foldl (fun acc u => addToGroup (templateOf u) u acc) acc) =
        (processed ++ urls).filter (fun u => templateOf u == t) := by
  induction urls with
  | nil => intro acc processed h t; simpa using h t
  | cons v vs ih =>
    intro acc processed h t
    simp only [List.foldl_cons]
    have hstep : ∀ t, groupVal t (addToGroup (templateOf v) v acc) =
        (processed ++ [v]).filter (fun u => templateOf u == t) := by
      intro t
      by_cases ht : t = templateOf v
      · subst ht
        rw [groupVal_addToGroup_same]
        simp [List.filter_append, h]
      · rw [groupVal_addToGroup_ne _ _ _ ht]
        have hb : (templateOf v == t) = false := by simpa using (Ne.symm ht)
        simp [List.filter_append, h, hb]
    have := ih (addToGroup (templateOf v) v acc) (processed ++ [v]) hstep t
    simpa using this

lemma groupVal_of_mem :
    ∀ (l : List (String × List String)) (t : String) (us : List String),
      (l.map Prod.fst).Nodup → (t, us) ∈ l → groupVal t l = us := by
  intro l
  induction l with
  | nil => intro t us _ h; cases h
  | cons hd tl ih =>
    rcases hd with ⟨k, vs⟩
    intro t us hnd hmem
    rcases List.mem_cons.mp hmem with heq | hmem'
    · cases heq
      simp [groupVal]
    · by_cases htk : k = t
      · subst htk
        exfalso
        have : k ∈ tl.map Prod.fst := by
          have := List.mem_map_of_mem Prod.fst hmem'
          simpa using this
        exact (List.nodup_cons.mp hnd).1 this
      · have hb : (k == t) = false := by simpa using htk
        simp only [groupVal, List.find?, hb]
        exact ih t us (List.nodup_cons.mp hnd).2 hmem'

/-! ### Lemmas about the fetch-retry loop -/

lemma fetch_page_go_succ (resp : Nat → FetchResp) (url : String)
    (remaining attempt : Nat) (lastErr : String) :
    fetch_page_go resp url (remaining + 1) attempt lastErr =
      match resp attempt with
      | .http code body finalUrl =>
        if code = 200 then ((some body, finalUrl, ""), attempt + 1)
        else fetch_page_go resp url remaining (attempt + 1)
          (respError (.http code body finalUrl))
      | other => fetch_page_go resp url remaining (attempt + 1) (respError other) :=
  rfl

lemma fetch_page_go_all_fail (resp : Nat → FetchResp) (url : String) :
    ∀ (r attempt : Nat) (lastErr : String),
      (∀ i, attempt ≤ i → i ≤ attempt + r → isOk200 (resp i) = false) →
      fetch_page_go resp url (r + 1) attempt lastErr =
        ((none, url, respError (resp (attempt + r))), attempt + r + 1) := by
  intro r
  induction r with
  | zero =>
    intro attempt lastErr h
    have h0 : isOk200 (resp attempt) = false := h attempt le_rfl (by omega)
    rw [fetch_page_go_succ]
    simp only [Nat.add_zero]
    cases hr : resp attempt with
    | http code body finalUrl =>
      have hcode : code ≠ 200 := by
        rw [hr] at h0; simpa [isOk200] using h0
      dsimp only
      rw [if_neg hcode]
      rfl
    | connError m => rfl
    | serverTimeout => rfl
    | sslError m => rfl
    | reqTimeout => rfl
    | exc n m => rfl
  | succ r ih =>
    intro attempt lastErr h
    have h0 : isOk200 (resp attempt) = false := h attempt le_rfl (by omega)
    have harith : attempt + 1 + r = attempt + (r + 1) := by omega
    have hrec := ih (attempt + 1) (respError (resp attempt))
      (fun i h1 h2 => h i (by omega) (by omega))
    rw [harith] at hrec
    rw [fetch_page_go_succ]
    cases hr : resp attempt with
    | http code body finalUrl =>
      have hcode : code ≠ 200 := by
        rw [hr] at h0; simpa [isOk200] using h0
      rw [hr] at hrec
      dsimp only
      rw [if_neg hcode]
      exact hrec
    | connError m =>
      rw [hr] at hrec
      exact hrec
    | serverTimeout =>
      rw [hr] at hrec
      exact hrec
    | sslError m =>
      rw [hr] at hrec
      exact hrec
    | reqTimeout =>
      rw [hr] at hrec
      exact hrec
    | exc n m =>
      rw [hr] at hrec
      exact hrec

lemma batch_collect_length {α : Type} (results : List α) :
    ∀ order : List Nat, (∀ i ∈ order, i < results.length) →
      (batch_collect results order).length = order.length := by
  intro order
  induction order with
  | nil => intro _; rfl
  | cons i rest ih =>
    intro h
    have hi : i < results.length := h i (List.mem_cons_self i rest)
    simp only [batch_collect, List.filterMap_cons] at *
    rw [List.getElem?_eq_getElem hi]
    simp only [List.length_cons]
    rw [ih (fun j hj => h j (List.mem_cons_of_mem i hj))]

/-! ### Claim theorems -/

/-- C1: the batch returns exactly one `SmartAnalysisResult` per input
target: `run_smart_analysis` (asyncio.gather) yields one result per site in
task order, and collecting the same per-site results in any completion
order (`batch_collect`, modelling `asyncio.as_completed` in
`BatchAnalyzer.analyze_sites`) still yields exactly `|targets|` results.
`analyze_site` is total — every failure becomes an error-status result — so
no failure aborts the batch or drops a sibling's result. -/
theorem C1_batch_exactly_one_result_per_target (net : Oracle) (sites : List SiteDict) :
    (run_smart_analysis net sites).length = sites.length ∧
    ∀ order : List Nat, order.Perm (List.range sites.length) →
      (batch_collect (run_smart_analysis net sites) order).length = sites.length := by
  have hlen : (run_smart_analysis net sites).length = sites.length := by
    simp [run_smart_analysis]
  refine ⟨hlen, ?_⟩
  intro order hperm
  have hbound : ∀ i ∈ order, i < (run_smart_analysis net sites).length := by
    intro i hi
    have hr : i ∈ List.range sites.length := hperm.mem_iff.mp hi
    rw [hlen]
    exact List.mem_range.mp hr
  rw [batch_collect_length _ order hbound, hperm.length_eq, List.length_range]

def netW1 : Oracle := fun _ => .fail "connect error"

def sitesW1 : List SiteDict := [⟨"A", "a.com"⟩, ⟨"B", "b.com"⟩]

/-- Witness for C1: a concrete all-failing batch of two sites, collected in
reversed completion order, still yields exactly two results. -/
theorem C1_batch_witness :
    (batch_collect (run_smart_analysis netW1 sitesW1) [1, 0]).length = sitesW1.length :=
  (C1_batch_exactly_one_result_per_target netW1 sitesW1).2 [1, 0] (by decide)

/-- C2: on exactly the lot URLs `["https://s.com/lote/1",
"https://s.com/lote/2", "https://s.com/item/9"]`, pattern extraction
returns exactly the two candidates `/lote/` (count 2, confidence 2/10) and
`/item/` (count 1, confidence 1/10), ranked `/lote/` first, with confidence
`min(count/10, 1)`. -/
theorem C2_extract_patterns_concrete :
    SmartSiteAnalyzer.extract_patterns
        ["https://s.com/lote/1", "https://s.com/lote/2", "https://s.com/item/9"]
        "s.com" =
      [{ pattern := "/lote/",
         example_urls := ["https://s.com/lote/1", "https://s.com/lote/2"],
         confidence := min ((2 : ℚ) / 10) 1, count := 2 },
       { pattern := "/item/", example_urls := ["https://s.com/item/9"],
         confidence := min ((1 : ℚ) / 10) 1, count := 1 }] ∧
    min ((2 : ℚ) / 10) 1 = 2 / 10 ∧ min ((1 : ℚ) / 10) 1 = 1 / 10 :=
  ⟨rfl, by norm_num, by norm_num⟩

def soupC3 : Soup := ⟨[⟨"https://s.com/imovel-1234", "ver todos", ""⟩], []⟩

/-- C3 counterexample: on this page the same URL is classified both as a
navigation/listing candidate and as a lot candidate, so the two sets are
not disjoint and lot classification takes no precedence. -/
theorem C3_counterexample_overlap :
    "https://s.com/imovel-1234" ∈
      SmartSiteAnalyzer.find_navigation_links soupC3 "https://s.com/" "s.com" ∧
    "https://s.com/imovel-1234" ∈
      SmartSiteAnalyzer.find_lot_links soupC3 "https://s.com/" "s.com" := by
  decide

/-- C3 amended: the two classifiers run independently with no precedence —
any same-domain anchor that fires both the navigation heuristic and the lot
heuristic (and is not skip-listed) yields its URL in BOTH candidate
lists. -/
theorem C3_amended_double_hit_in_both (soup : Soup) (base_url base_domain : String)
    (a : Anchor) (ha : a ∈ soup.anchors)
    (hnav : SmartSiteAnalyzer.nav_hit a = true)
    (hskip : SmartSiteAnalyzer.lot_skip a = false)
    (hlot : SmartSiteAnalyzer.lot_hit a base_url = true)
    (hdom : SmartSiteAnalyzer.is_same_domain
      (parse_url (urljoin base_url a.href)).netloc base_domain = true) :
    urljoin base_url a.href ∈
      SmartSiteAnalyzer.find_navigation_links soup base_url base_domain ∧
    urljoin base_url a.href ∈
      SmartSiteAnalyzer.find_lot_links soup base_url base_domain := by
  constructor
  · unfold SmartSiteAnalyzer.find_navigation_links
    refine foldl_mem_hit _ ?_ a _ ?_ soup.anchors [] ha
    · intro acc x u hu
      dsimp only
      split_ifs <;> simp [hu]
    · intro acc
      simp only [hnav, hdom, if_true]
      split_ifs with hmem
      · exact hmem
      · simp
  · unfold SmartSiteAnalyzer.find_lot_links
    refine foldl_mem_mono _ ?_ soup.cardAnchors _ _ ?_
    · intro acc x u hu
      dsimp only
      split_ifs <;> simp [hu]
    · refine foldl_mem_hit _ ?_ a _ ?_ soup.anchors [] ha
      · intro acc x u hu
        dsimp only
        split_ifs <;> simp [hu]
      · intro acc
        simp only [hskip, hdom, hlot, Bool.not_true, if_true, if_false,
          Bool.false_eq_true]
        split_ifs with hmem
        · exact hmem
        · simp

def soupC3w : Soup := ⟨[⟨"https://t.com/imovel-99", "ver todos", ""⟩], []⟩

/-- Witness for the amended C3 at a concrete double-firing anchor. -/
theorem C3_amended_witness :
    urljoin "https://t.com/" "https://t.com/imovel-99" ∈
      SmartSiteAnalyzer.find_navigation_links soupC3w "https://t.com/" "t.com" ∧
    urljoin "https://t.com/" "https://t.com/imovel-99" ∈
      SmartSiteAnalyzer.find_lot_links soupC3w "https://t.com/" "t.com" :=
  C3_amended_double_hit_in_both soupC3w "https://t.com/" "t.com"
    ⟨"https://t.com/imovel-99", "ver todos", ""⟩ (by decide) (by decide) (by decide)
    (by decide) (by decide)

/-- C4 counterexample: grouping is not by the pre-placeholder prefix —
`/lote/123` and `/lote/abc-def` normalize to the different templates
`/lote/{id}` and `/lote/{slug}`, yielding two separate candidates whose
pattern strings are both `/lote/`: the output contains duplicates. -/
theorem C4_counterexample_duplicate_patterns :
    (SmartSiteAnalyzer.extract_patterns
        ["https://s.com/lote/123", "https://s.com/lote/abc-def"] "s.com").map
      LotPattern.pattern = ["/lote/", "/lote/"] ∧
    ¬ ((SmartSiteAnalyzer.extract_patterns
        ["https://s.com/lote/123", "https://s.com/lote/abc-def"] "s.com").map
      LotPattern.pattern).Nodup := by
  decide

/-- C4 amended: `_extract_patterns` groups the URLs by their FULL normalized
template (placeholders included): template keys are pairwise distinct and
each group collects exactly the input URLs sharing its template.  Since the
emitted pattern string keeps only the prefix before the first placeholder,
two candidates with equal pattern strings can occur. -/
theorem C4_amended_grouping_by_full_template (urls : List String) :
    ((path_structures urls).map Prod.fst).Nodup ∧
    ∀ t us, (t, us) ∈ path_structures urls →
      us = urls.filter (fun u => templateOf u == t) := by
  constructor
  · exact nodup_keys_path_structures_go urls [] (by simp)
  · intro t us hmem
    have hnd : ((path_structures urls).map Prod.fst).Nodup :=
      nodup_keys_path_structures_go urls [] (by simp)
    have h1 := groupVal_of_mem (path_structures urls) t us hnd hmem
    have h2 := groupVal_path_structures_go urls [] []
      (by intro t; simp [groupVal]) t
    rw [show (urls.foldl (fun acc u => addToGroup (templateOf u) u acc) [] : List (String × List String)) = path_structures urls from rfl] at h2
    rw [h1] at h2
    simpa using h2

/-- Witness for the amended C4: the `/lote/{id}` group of the two-URL input
is exactly the filter of the input by that template. -/
theorem C4_amended_witness :
    ["https://s.com/lote/123"] =
      (["https://s.com/lote/123", "https://s.com/lote/abc-def"].filter
        (fun u => templateOf u == "/lote/{id}")) :=
  (C4_amended_grouping_by_full_template
    ["https://s.com/lote/123", "https://s.com/lote/abc-def"]).2
    "/lote/{id}" ["https://s.com/lote/123"] (by decide)

/-- C5 counterexample: with five distinct visited listing pages, the
synthesized crawl list has SIX entries — the claimed cap of 5 total entries
is exceeded. -/
theorem C5_counterexample_six_entries :
    ((SmartSiteAnalyzer.generate_config "https://s.com" ""
        ["https://s.com/a", "https://s.com/b", "https://s.com/c",
         "https://s.com/d", "https://s.com/e"] []).1).length = 6 := by
  decide

/-- C5 amended: `crawl_start_urls` has the final URL as its first element
and contains at most SIX entries (the final URL plus at most 5 distinct
listing pages), not at most five. -/
theorem C5_amended_head_and_cap_six (url_final url_base : String)
    (listing_pages : List String) (patterns : List LotPattern)
    (h : url_final ≠ "") :
    ((SmartSiteAnalyzer.generate_config url_final url_base listing_pages
        patterns).1).head? = some url_final ∧
    ((SmartSiteAnalyzer.generate_config url_final url_base listing_pages
        patterns).1).length ≤ 6 := by
  unfold SmartSiteAnalyzer.generate_config
  dsimp only
  rw [if_pos h]
  constructor
  · rw [crawl_foldl_head (listing_pages.take 5) [url_final] (by simp)]
    rfl
  · have h1 := crawl_foldl_length (listing_pages.take 5) [url_final]
    have h2 : (listing_pages.take 5).length ≤ 5 := by
      rw [List.length_take]
      exact min_le_left _ _
    have h3 : ([url_final] : List String).length = 1 := rfl
    omega

/-- Witness for the amended C5. -/
theorem C5_amended_witness :
    ((SmartSiteAnalyzer.generate_config "https://s.com" "" ["https://s.com/a"]
        []).1).head? = some "https://s.com" ∧
    ((SmartSiteAnalyzer.generate_config "https://s.com" "" ["https://s.com/a"]
        []).1).length ≤ 6 :=
  C5_amended_head_and_cap_six "https://s.com" "" ["https://s.com/a"] [] (by decide)

/-- C6 counterexample: a constant HTTP 403 response is retried like any
failure — with `retries = 2` the fetcher makes 3 attempts, not 1, and only
then returns the 403 failure message. -/
theorem C6_counterexample_403_is_retried :
    fetch_page (fun _ => .http 403 "blocked" "https://x.com/") "https://x.com" 2 =
      ((none, "https://x.com", "HTTP 403 Forbidden - Site bloqueou acesso"), 3) ∧
    (3 : Nat) ≠ 1 := by
  decide

/-- C6 amended: `_fetch_page` treats every non-200 outcome alike — HTTP 403
and 404 included: it keeps retrying until the attempt budget `retries + 1`
is exhausted and then returns `(None, url, last_error)` with the message of
the last attempt; only a 200 response returns early without retrying. -/
theorem C6_amended_non200_always_retried (resp : Nat → FetchResp) (url : String)
    (retries : Nat) (h : ∀ i, i ≤ retries → isOk200 (resp i) = false) :
    fetch_page resp url retries =
      ((none, url, respError (resp retries)), retries + 1) := by
  have hmain := fetch_page_go_all_fail resp url retries 0 ""
    (fun i h1 h2 => h i (by omega))
  simpa [fetch_page] using hmain

/-- Witness for the amended C6: two attempts on a constant 404. -/
theorem C6_amended_witness :
    fetch_page (fun _ => FetchResp.http 404 "" "") "https://y.com" 1 =
      ((none, "https://y.com", respError (FetchResp.http 404 "" "")), 1 + 1) :=
  C6_amended_non200_always_retried (fun _ => FetchResp.http 404 "" "")
    "https://y.com" 1 (fun i _ => rfl)

def netC7 : Oracle := fun u =>
  if u = "https://s.com" then .ok ⟨[⟨"/1234", "", ""⟩], []⟩ "https://s.com"
  else .fail "x"

/-- C7 counterexample: this analysis reaches pattern extraction with one lot
candidate (`/1234`) whose template `/{id}` has no usable prefix: lot
examples are non-empty but zero patterns are found, and the final status is
"no_patterns" — not "success" as the claim requires. -/
theorem C7_counterexample_examples_without_success :
    (SmartSiteAnalyzer.analyze_site netC7 "s.com" "N" 8).lot_examples ≠ [] ∧
    (SmartSiteAnalyzer.analyze_site netC7 "s.com" "N" 8).lot_patterns = [] ∧
    (SmartSiteAnalyzer.analyze_site netC7 "s.com" "N" 8).status = "no_patterns" := by
  decide

/-- C7 amended: for every analysis that reaches pattern extraction (the home
fetch succeeded), the final status is "success" iff at least one pattern was
found; the lot example list is not consulted. -/
theorem C7_amended_success_iff_patterns (net : Oracle) (dominio nome : String)
    (max_pages : Nat) (soup : Soup) (final_url : String)
    (h : net (normalize_domain dominio) = .ok soup final_url) :
    ((SmartSiteAnalyzer.analyze_site net dominio nome max_pages).status = "success" ↔
      (SmartSiteAnalyzer.analyze_site net dominio nome max_pages).lot_patterns ≠ []) := by
  unfold SmartSiteAnalyzer.analyze_site
  dsimp only
  rw [h]
  dsimp only
  split <;> simp_all

def netC7w : Oracle := fun u =>
  if u = "https://w.com" then .ok ⟨[], []⟩ "https://w.com" else .fail "x"

/-- Witness for the amended C7 at a concrete successful home fetch. -/
theorem C7_amended_witness :
    ((SmartSiteAnalyzer.analyze_site netC7w "w.com" "N" 8).status = "success" ↔
      (SmartSiteAnalyzer.analyze_site netC7w "w.com" "N" 8).lot_patterns ≠ []) :=
  C7_amended_success_iff_patterns netC7w "w.com" "N" 8 ⟨[], []⟩ "https://w.com"
    (by decide)

/-- C8: whenever the ranked pattern list handed to config synthesis is
empty, both synthesizer variants return exactly the fixed fallback
`["/lote/", "/item/", "/detalhe/"]` for the include paths, for every final
URL, base URL and listing-page list, without signalling an error. -/
theorem C8_empty_patterns_fixed_fallback (final_url base_url : String)
    (listing_pages : List String) :
    (SmartSiteAnalyzer.generate_config final_url base_url listing_pages []).2 =
      ["/lote/", "/item/", "/detalhe/"] ∧
    (DeepSiteAnalyzer.define_crawl_config final_url base_url listing_pages []).2 =
      ["/lote/", "/item/", "/detalhe/"] :=
  ⟨rfl, rfl⟩

def soupC9 : Soup := ⟨[⟨"https://shopwww.example.com/x", "", ""⟩], []⟩

/-- C9 counterexample: the deep link extraction retains a link whose host is
neither the page's host nor a `www.`-prefix variant of it (and is of a
different registrable domain): `shopwww.example.com` passes the
www.-deletion check on a page of `shopexample.com`. -/
theorem C9_counterexample_cross_domain_retained :
    "https://shopwww.example.com/x" ∈
      DeepSiteAnalyzer.analyze_page_links soupC9 "https://shopexample.com/" ∧
    "shopwww.example.com" ≠ "shopexample.com" ∧
    "shopwww.example.com" ≠ "www." ++ "shopexample.com" ∧
    "shopexample.com" ≠ "www." ++ "shopwww.example.com" := by
  decide

/-- C9 amended: every link either extractor returns comes from an anchor
whose resolved host passed that variant's same-domain check — exact host
equality or an exact `www.` prefix difference for the structure variant;
equality after deleting every `www.` occurrence from both hosts for the
deep variant, which admits crafted hosts of a different registrable domain.
An `https://evil.com` anchor on an `https://a.com/x` page passes neither
check. -/
theorem C9_amended_links_pass_domain_check (soup : Soup)
    (final_url base_url base_domain u : String) :
    (u ∈ DeepSiteAnalyzer.analyze_page_links soup final_url →
      ∃ a, a ∈ soup.anchors ∧
        DeepSiteAnalyzer.is_same_domain (parse_url (urljoin final_url a.href)).netloc
          (parse_url final_url).netloc = true ∧
        u = clean_url (parse_url (urljoin final_url a.href))) ∧
    (u ∈ SiteStructureAnalyzer.extract_internal_links soup base_url base_domain →
      ∃ a, a ∈ soup.anchors ∧
        ((parse_url (urljoin base_url a.href)).netloc == base_domain ||
         (parse_url (urljoin base_url a.href)).netloc == "www." ++ base_domain ||
         base_domain == "www." ++ (parse_url (urljoin base_url a.href)).netloc) = true ∧
        u = clean_url (parse_url (urljoin base_url a.href))) := by
  constructor
  · intro hu
    unfold DeepSiteAnalyzer.analyze_page_links at hu
    have hres := foldl_mem_of_step _
      (fun a v =>
        DeepSiteAnalyzer.is_same_domain (parse_url (urljoin final_url a.href)).netloc
          (parse_url final_url).netloc = true ∧
        v = clean_url (parse_url (urljoin final_url a.href)))
      ?_ soup.anchors [] u hu
    · rcases hres with habs | ⟨a, ha, hp⟩
      · cases habs
      · exact ⟨a, ha, hp.1, hp.2⟩
    · intro acc a v hv
      split_ifs at hv with h1 h2 h3
      · exact Or.inl hv
      · exact Or.inl hv
      · rcases List.mem_append.mp hv with hin | hnew
        · exact Or.inl hin
        · exact Or.inr ⟨h2, List.mem_singleton.mp hnew⟩
      · exact Or.inl hv
  · intro hu
    unfold SiteStructureAnalyzer.extract_internal_links at hu
    have hres := foldl_mem_of_step _
      (fun a v =>
        ((parse_url (urljoin base_url a.href)).netloc == base_domain ||
         (parse_url (urljoin base_url a.href)).netloc == "www." ++ base_domain ||
         base_domain == "www." ++ (parse_url (urljoin base_url a.href)).netloc) = true ∧
        v = clean_url (parse_url (urljoin base_url a.href)))
      ?_ soup.anchors [] u hu
    · rcases hres with habs | ⟨a, ha, hp⟩
      · cases habs
      · exact ⟨a, ha, hp.1, hp.2⟩
    · intro acc a v hv
      split_ifs at hv with h1 h2 h3
      · exact Or.inl hv
      · exact Or.inl hv
      · rcases List.mem_append.mp hv with hin | hnew
        · exact Or.inl hin
        · exact Or.inr ⟨h2, List.mem_singleton.mp hnew⟩
      · exact Or.inl hv

def soupC9w : Soup := ⟨[⟨"https://shopwww.example.com/x", "", ""⟩], []⟩

/-- Witness for the amended C9: the retained cross-registrable-domain link
does come from an anchor that passed the deep www.-deletion check. -/
theorem C9_amended_witness :
    ∃ a, a ∈ soupC9w.anchors ∧
      DeepSiteAnalyzer.is_same_domain
        (parse_url (urljoin "https://shopexample.com/" a.href)).netloc
        (parse_url "https://shopexample.com/").netloc = true ∧
      "https://shopwww.example.com/x" =
        clean_url (parse_url (urljoin "https://shopexample.com/" a.href)) :=
  (C9_amended_links_pass_domain_check soupC9w "https://shopexample.com/" "" ""
    "https://shopwww.example.com/x").1 (by decide)

def soupC10 : Soup := ⟨[⟨"https://shopwww.example.com/x", "", ""⟩], []⟩

/-- C10: both `_is_same_domain` variants delete every occurrence of the
substring `www.` from both hosts before comparing, so the distinct hosts
`shopwww.example.com` and `shopexample.com` — neither being the
`www.`-prefixed form of the other — are treated as the same domain, and
such links are retained as internal by the link extraction. -/
theorem C10_www_deletion_false_positive :
    SmartSiteAnalyzer.is_same_domain "shopwww.example.com" "shopexample.com" = true ∧
    DeepSiteAnalyzer.is_same_domain "shopwww.example.com" "shopexample.com" = true ∧
    "shopwww.example.com" ≠ "shopexample.com" ∧
    "shopwww.example.com" ≠ "www." ++ "shopexample.com" ∧
    "shopexample.com" ≠ "www." ++ "shopwww.example.com" ∧
    "https://shopwww.example.com/x" ∈
      DeepSiteAnalyzer.analyze_page_links soupC10 "https://shopexample.com/" := by
  decide
